import Mathlib

/-!
# Mailbox Image Analyzer — verification of the image intake and
# change-detection pipeline

A shallow embedding of the mailbox-image-analyzer pipeline.  The repository
ships the CDK infrastructure stack (`mailbox-image-analyzer-stack.ts`), the
project README describing the pipeline, and deployment scripts; the Python
lambda bodies (`image_processor.py`, `thumbnail_sync.py`,
`create_median_image.py`, `compare_latest_with_median.py`) are referenced by
the stack but their sources are not part of the material, so those components
are modelled from the specification, as marked on each definition.  The
bucket-notification wiring and the webapp deployment are embedded directly
from the CDK stack source.
-/

namespace Mailbox

/-- Opaque encoded binary content of a store object. -/
abbrev Bytes := List Nat

/-- A decoded image, flattened to its per-channel pixel values. -/
abbrev Image := List Nat

/-- The key-addressed object store: a key either holds bytes or is absent. -/
abbrev Store := String → Option Bytes

/-- Writing one object into the store (S3 `put`): the new bytes fully replace
whatever was at the key before; all other keys are untouched. -/
def putObject (st : Store) (k : String) (b : Bytes) : Store :=
  fun q => if q = k then some b else st q

/-! ## IngestionGate -/

/-- Modelled from the spec: the time-window check of `image_processor.py`
(absent from the available sources).  Accepts a minute value iff it lies in
the ten-minute window straddling the hour boundary, minutes 55–59 or 00–04. -/
def acceptsMinute (m : Nat) : Bool := (55 ≤ m) || (m ≤ 4)

/-- The minute component of a wall-clock instant given in whole minutes. -/
def minuteOf (t : Nat) : Nat := t % 60

/-- Modelled from the spec: `IngestionGate.accepts(currentTime)`, a pure
function of the injected time source.  `t` counts whole minutes. -/
def accepts (t : Nat) : Bool := acceptsMinute (minuteOf t)

/-- C1: `IngestionGate.accepts(t)` is true iff the minute component of `t`
lies in {55,56,57,58,59,0,1,2,3,4}, and false for every other minute value
(in particular 5 and 54).  The embedding is a pure function, so the decision
depends on nothing but `t`. -/
theorem ingestionGate_accepts_iff (t : Nat) :
    accepts t = true ↔
      minuteOf t ∈ ({55, 56, 57, 58, 59, 0, 1, 2, 3, 4} : Finset Nat) := by
  have h : minuteOf t < 60 := Nat.mod_lt _ (by norm_num)
  simp only [accepts, acceptsMinute, minuteOf, Bool.or_eq_true, decide_eq_true_eq,
    Finset.mem_insert, Finset.mem_singleton] at *
  omega

/-- C1 witness: the gate accepts at minute 57 and rejects at minutes 5
and 54 (evaluated through the boundary theorem at concrete instants). -/
theorem ingestionGate_accepts_iff_witness :
    accepts 57 = true ∧ accepts 5 ≠ true ∧ accepts 54 ≠ true :=
  ⟨(ingestionGate_accepts_iff 57).mpr (by decide),
   fun h => absurd ((ingestionGate_accepts_iff 5).mp h) (by decide),
   fun h => absurd ((ingestionGate_accepts_iff 54).mp h) (by decide)⟩

/-! ## ThumbnailReconciler -/

/-- Modelled from the spec: the thumbnail key derived from an archive key,
as computed by the shared thumbnail_utils layer (absent from the available
sources).  `usortert/<stamp>.jpg` maps to `thumbnails/<stamp>-thumbnail.jpg`:
the folder name (9 characters) is stripped, the `.jpg` extension (4
characters) is dropped, and the thumbnail folder and suffix are attached. -/
def thumbKeyOfArchive (a : String) : String :=
  "thumbnails/" ++ ((a.drop 9).dropRight 4) ++ "-thumbnail.jpg"

/-- Outcome of one reconciler run: the thumbnail key set left in the folder
and how many thumbnails the run wrote and deleted. -/
structure ReconcileResult where
  thumbs : Finset String
  created : Nat
  deleted : Nat
deriving DecidableEq

/-- Modelled from the spec: one run of the thumbnail synchronization job
(`thumbnail_sync.py`, absent from the available sources).  It lists the
archive keys and the existing thumbnail keys, derives the expected
thumbnail-key set from the archive set, writes every missing thumbnail and
deletes every orphaned one. -/
def reconcile (archives thumbs : Finset String) : ReconcileResult :=
  let derived := archives.image thumbKeyOfArchive
  let toCreate := derived \ thumbs
  let orphans := thumbs \ derived
  ⟨(thumbs \ orphans) ∪ toCreate, toCreate.card, orphans.card⟩

/-- After one reconciler run the thumbnail set is exactly the derived image
of the archive set. -/
lemma reconcile_thumbs_eq (archives thumbs : Finset String) :
    (reconcile archives thumbs).thumbs = archives.image thumbKeyOfArchive := by
  ext x
  simp only [reconcile, Finset.mem_union, Finset.mem_sdiff]
  tauto

/-- C2: the reconciled state is a fixed point of `reconcile`: a second run
over the same archive set performs zero writes and zero deletes and leaves
the thumbnail set unchanged. -/
theorem thumbnailReconciler_idempotent (archives thumbs : Finset String) :
    (reconcile archives (reconcile archives thumbs).thumbs).created = 0 ∧
      (reconcile archives (reconcile archives thumbs).thumbs).deleted = 0 ∧
      (reconcile archives (reconcile archives thumbs).thumbs).thumbs =
        (reconcile archives thumbs).thumbs := by
  rw [reconcile_thumbs_eq archives thumbs]
  refine ⟨?_, ?_, ?_⟩
  · simp [reconcile]
  · simp [reconcile]
  · rw [reconcile_thumbs_eq]

/-! ## Archiver -/

/-- A wall-clock instant truncated to minute resolution, as used for the
derived object keys. -/
structure Timestamp where
  year : Nat
  month : Nat
  day : Nat
  hour : Nat
  minute : Nat
deriving DecidableEq

/-- Two-digit zero padding used inside the derived minute keys. -/
def pad2 (n : Nat) : String := (if n < 10 then "0" else "") ++ toString n

/-- Modelled from the spec: the `YYYY-MM-DD-HH-MM` minute stamp that names
archive and thumbnail objects. -/
def minuteStamp (t : Timestamp) : String :=
  toString t.year ++ "-" ++ pad2 t.month ++ "-" ++ pad2 t.day ++ "-" ++
    pad2 t.hour ++ "-" ++ pad2 t.minute

/-- Modelled from the spec: the archive key `usortert/<YYYY-MM-DD-HH-MM>.jpg`
derived from the minute-truncated invocation time. -/
def archiveKey (t : Timestamp) : String := "usortert/" ++ minuteStamp t ++ ".jpg"

/-- Modelled from the spec: the paired thumbnail key
`thumbnails/<YYYY-MM-DD-HH-MM>-thumbnail.jpg`. -/
def thumbnailKey (t : Timestamp) : String :=
  "thumbnails/" ++ minuteStamp t ++ "-thumbnail.jpg"

/-- How one Archiver invocation ended: it archived, it was a gate-rejected
no-op, or it failed on undecodable source bytes. -/
inductive ArchiveOutcome
  | archived
  | skipped
  | inputError
deriving DecidableEq

/-- The observable result of one Archiver invocation: the store it leaves
behind, the surfaced outcome, and the archive-key reference (if any) of the
fire-and-forget dispatch to the change detector. -/
structure ArchiveResult where
  store : Store
  outcome : ArchiveOutcome
  dispatched : Option String

/-- Modelled from the spec: the archival path of `image_processor.py`
(absent from the available sources).  It consults the ingestion gate with
the invocation time; if rejected it is a no-op.  Otherwise it decodes the
upload bytes (`decode` and `makeThumb` stand for the injected pure Pillow
decode and thumbnail-encode functions); a decode failure aborts before any
write and surfaces an input error.  On success it writes the archive object,
then the thumbnail object, then dispatches the new archive key. -/
def archiver (decode : Bytes → Option Image) (makeThumb : Image → Bytes)
    (t : Timestamp) (upload : Bytes) (st : Store) : ArchiveResult :=
  if acceptsMinute t.minute then
    match decode upload with
    | none => ⟨st, .inputError, none⟩
    | some img =>
        let st1 := putObject st (archiveKey t) upload
        let st2 := putObject st1 (thumbnailKey t) (makeThumb img)
        ⟨st2, .archived, some (archiveKey t)⟩
  else ⟨st, .skipped, none⟩

/-- The derived thumbnail key never collides with the derived archive key:
the two folder names and suffixes give the keys different lengths. -/
lemma thumbnailKey_ne_archiveKey (t : Timestamp) :
    thumbnailKey t ≠ archiveKey t := by
  intro h
  have hlen := congrArg String.length h
  simp only [thumbnailKey, archiveKey, String.length_append] at hlen
  have e1 : ("thumbnails/" : String).length = 11 := rfl
  have e2 : ("-thumbnail.jpg" : String).length = 14 := rfl
  have e3 : ("usortert/" : String).length = 9 := rfl
  have e4 : (".jpg" : String).length = 4 := rfl
  omega

/-- C5: the Archiver is deterministic in its inputs (it is a pure function
of the upload bytes and the minute-truncated timestamp, so two invocations
derive the same keys and bytes), and running it a second time over the store
the first run produced changes nothing: the same two keys are overwritten
with the same bytes, leaving exactly one archive object and one thumbnail
object and the same outcome, without error. -/
theorem archiver_idempotent (decode : Bytes → Option Image)
    (makeThumb : Image → Bytes) (t : Timestamp) (upload : Bytes) (st : Store) :
    (archiver decode makeThumb t upload
        ((archiver decode makeThumb t upload st).store)).store =
      (archiver decode makeThumb t upload st).store ∧
    (archiver decode makeThumb t upload
        ((archiver decode makeThumb t upload st).store)).outcome =
      (archiver decode makeThumb t upload st).outcome ∧
    (∀ img, decode upload = some img → acceptsMinute t.minute = true →
      (archiver decode makeThumb t upload st).store (archiveKey t) = some upload ∧
        (archiver decode makeThumb t upload st).store (thumbnailKey t) =
          some (makeThumb img)) := by
  by_cases hg : acceptsMinute t.minute
  · cases hd : decode upload with
    | none =>
        simp [archiver, hg, hd]
    | some img =>
        refine ⟨?_, ?_, ?_⟩
        · funext q
          simp only [archiver, hg, if_true, hd, putObject]
          by_cases h1 : q = thumbnailKey t <;> by_cases h2 : q = archiveKey t <;>
            simp [h1, h2]
        · simp [archiver, hg, hd]
        · intro img2 hd2 _
          obtain rfl : img = img2 := Option.some.inj hd2
          have hne : archiveKey t ≠ thumbnailKey t :=
            fun hh => thumbnailKey_ne_archiveKey t hh.symm
          constructor
          · simp [archiver, hg, hd, putObject, hne]
          · simp [archiver, hg, hd, putObject]
  · simp [archiver, hg]

/-- A concrete injected decoder for witnesses: decodes nonempty byte lists
to themselves and fails on the empty list. -/
def testDecode : Bytes → Option Image := fun b => if b = [] then none else some b

/-- A concrete injected thumbnail encoder for witnesses. -/
def testThumb : Image → Bytes := fun i => i.take 1

/-- A concrete minute-truncated timestamp inside the ingestion window. -/
def testTs : Timestamp := ⟨2024, 6, 1, 14, 57⟩

/-- The store with no objects. -/
def emptyStore : Store := fun _ => none

/-- C5 witness: archiving the bytes `[7, 8]` at `2024-06-01 14:57` twice
leaves the single archive object holding `[7, 8]` and the single thumbnail
object holding `[7]`. -/
theorem archiver_idempotent_witness :
    (archiver testDecode testThumb testTs [7, 8]
        ((archiver testDecode testThumb testTs [7, 8] emptyStore).store)).store
        (archiveKey testTs) = some [7, 8] ∧
    (archiver testDecode testThumb testTs [7, 8] emptyStore).store
        (thumbnailKey testTs) = some [7] := by
  obtain ⟨h1, _, h3⟩ :=
    archiver_idempotent testDecode testThumb testTs [7, 8] emptyStore
  obtain ⟨ha, ht⟩ := h3 [7, 8] (by decide) (by decide)
  rw [h1]
  exact ⟨ha, ht⟩

/-- C6: an accepted invocation whose source bytes fail to decode aborts
before any write: the store is returned unchanged (no archive and no
thumbnail object is created or modified), the input error is surfaced as
the outcome, and nothing is dispatched for further processing. -/
theorem archiver_decode_failure_aborts (decode : Bytes → Option Image)
    (makeThumb : Image → Bytes) (t : Timestamp) (upload : Bytes) (st : Store)
    (hacc : acceptsMinute t.minute = true) (hdec : decode upload = none) :
    (archiver decode makeThumb t upload st).store = st ∧
    (archiver decode makeThumb t upload st).outcome = .inputError ∧
    (archiver decode makeThumb t upload st).dispatched = none := by
  simp [archiver, hacc, hdec]

/-- A decoder that always fails, standing for undecodable source bytes. -/
def failDecode : Bytes → Option Image := fun _ => none

/-- C6 witness: at `2024-06-01 14:57` (inside the window) with undecodable
bytes, the store stays empty and the outcome is the surfaced input error. -/
theorem archiver_decode_failure_aborts_witness :
    (archiver failDecode testThumb testTs [7] emptyStore).store = emptyStore ∧
    (archiver failDecode testThumb testTs [7] emptyStore).outcome =
      ArchiveOutcome.inputError :=
  ⟨(archiver_decode_failure_aborts failDecode testThumb testTs [7] emptyStore
      (by decide) rfl).1,
   (archiver_decode_failure_aborts failDecode testThumb testTs [7] emptyStore
      (by decide) rfl).2.1⟩

/-! ## BackgroundModelBuilder -/

/-- Modelled from the spec: the per-channel per-pixel median used by
`create_median_image.py` (absent from the available sources), with numpy
semantics: sort the sample values; an odd count takes the middle value, an
even count averages the two middle values (integer pixel arithmetic).  Any
correct sort computes the same order statistics; the embedding sorts by
insertion. -/
def median (l : List Nat) : Nat :=
  let s := List.insertionSort (· ≤ ·) l
  if l.length % 2 = 1 then s.getD (l.length / 2) 0
  else (s.getD (l.length / 2 - 1) 0 + s.getD (l.length / 2) 0) / 2

/-- Modelled from the spec: the pure core of `BackgroundModelBuilder.build`
(`create_median_image.py`, absent from the available sources).  The samples
are the listed reference images, already decoded and resized to the
canonical resolution of `res` pixel channels; an empty sample set yields no
model (the configuration error), otherwise the model is the per-pixel
median across all samples. -/
def buildModel (res : Nat) (samples : List Image) : Option Image :=
  if samples.isEmpty then none
  else some ((List.range res).map fun i =>
    median (samples.map fun im => im.getD i 0))

/-- The median model object with its metadata. -/
structure MedianModel where
  pixels : Image
  builtAt : Nat
  sampleCount : Nat
deriving DecidableEq

/-- The failure class of the model-builder job. -/
inductive BuildError
  | configurationError
deriving DecidableEq

/-- The single-slot store holding the current median model. -/
structure ModelStore where
  medianModel : Option MedianModel
deriving DecidableEq

/-- Modelled from the spec: one run of the scheduled model-builder job.  If
the reference sample set is empty the job fails with the configuration
error and leaves the stored model untouched; otherwise it replaces the
model wholesale with the freshly computed median image and metadata. -/
def buildJob (res now : Nat) (samples : List Image) (st : ModelStore) :
    ModelStore × Option BuildError :=
  match buildModel res samples with
  | none => (st, some .configurationError)
  | some pixels => (⟨some ⟨pixels, now, samples.length⟩⟩, none)

/-- C7: on an empty reference sample set the build job fails with the
configuration error and the previously stored median model is returned
completely untouched. -/
theorem backgroundModelBuilder_empty_fails (res now : Nat) (st : ModelStore) :
    buildJob res now ([] : List Image) st =
      (st, some BuildError.configurationError) := by
  simp [buildJob, buildModel]

/-- getD of a list all of whose members equal `v`, at an index below the
length, is `v`. -/
lemma getD_eq_of_forall_mem {l : List Nat} {v i : Nat}
    (hall : ∀ x ∈ l, x = v) (hi : i < l.length) : l.getD i 0 = v := by
  rw [List.getD_eq_getElem l 0 hi]
  exact hall _ (List.getElem_mem hi)

/-- getD of a replicated list below its length. -/
lemma getD_replicate_of_lt {m k v : Nat} (h : k < m) :
    (List.replicate m v).getD k 0 = v :=
  getD_eq_of_forall_mem (fun _ hx => List.eq_of_mem_replicate hx)
    (by simpa using h)

/-- A constant list is sorted. -/
lemma sorted_replicate_le (m v : Nat) :
    List.Sorted (· ≤ ·) (List.replicate m v) := by
  induction m with
  | zero => simp
  | succ k ih =>
      rw [List.replicate_succ, List.sorted_cons]
      exact ⟨fun b hb => le_of_eq (List.eq_of_mem_replicate hb).symm, ih⟩

/-- The median of a nonempty constant list is its value. -/
lemma median_of_constant {l : List Nat} {v : Nat} (hne : l ≠ [])
    (hall : ∀ x ∈ l, x = v) : median l = v := by
  have hperm : (List.insertionSort (· ≤ ·) l).Perm l := List.perm_insertionSort _ l
  have hlen : (List.insertionSort (· ≤ ·) l).length = l.length := hperm.length_eq
  have hall2 : ∀ x ∈ List.insertionSort (· ≤ ·) l, x = v :=
    fun x hx => hall x (hperm.mem_iff.mp hx)
  have hpos : 0 < l.length := List.length_pos.mpr hne
  unfold median
  by_cases hp : l.length % 2 = 1
  · rw [if_pos hp]
    exact getD_eq_of_forall_mem hall2 (by omega)
  · rw [if_neg hp]
    rw [getD_eq_of_forall_mem hall2 (by omega),
      getD_eq_of_forall_mem hall2 (by omega)]
    omega

/-- Median robustness: in a list of `n ≥ 3` values of which `n - 1` equal
`v` and one is the outlier `w`, the median is `v`, whatever `w` is. -/
lemma median_of_majority {n v w : Nat} {l : List Nat} (hn : 3 ≤ n)
    (hperm : l.Perm (List.replicate (n - 1) v ++ [w])) : median l = v := by
  have hlen : l.length = n := by
    have h := hperm.length_eq
    simp only [List.length_append, List.length_replicate, List.length_cons,
      List.length_nil] at h
    omega
  have hsp : (List.insertionSort (· ≤ ·) l).Perm
      (List.replicate (n - 1) v ++ [w]) :=
    (List.perm_insertionSort _ l).trans hperm
  have hsorted : List.Sorted (· ≤ ·) (List.insertionSort (· ≤ ·) l) :=
    List.sorted_insertionSort _ l
  rcases le_total w v with hwv | hvw
  · -- the outlier sorts in front
    have hcs : List.Sorted (· ≤ ·) (w :: List.replicate (n - 1) v) := by
      rw [List.sorted_cons]
      refine ⟨fun b hb => ?_, sorted_replicate_le _ _⟩
      rw [List.eq_of_mem_replicate hb]
      exact hwv
    have hseq : List.insertionSort (· ≤ ·) l = w :: List.replicate (n - 1) v :=
      List.eq_of_perm_of_sorted (hsp.trans (List.perm_append_singleton _ _))
        hsorted hcs
    unfold median
    rw [hseq, hlen]
    by_cases hp : n % 2 = 1
    · rw [if_pos hp]
      obtain ⟨k, hk⟩ : ∃ k, n / 2 = k + 1 := ⟨n / 2 - 1, by omega⟩
      rw [hk, List.getD_cons_succ]
      exact getD_replicate_of_lt (by omega)
    · rw [if_neg hp]
      obtain ⟨k1, hk1⟩ : ∃ k, n / 2 - 1 = k + 1 := ⟨n / 2 - 2, by omega⟩
      obtain ⟨k2, hk2⟩ : ∃ k, n / 2 = k + 1 := ⟨n / 2 - 1, by omega⟩
      rw [hk1, hk2, List.getD_cons_succ, List.getD_cons_succ,
        getD_replicate_of_lt (by omega), getD_replicate_of_lt (by omega)]
      omega
  · -- the outlier sorts at the back
    have hcs : List.Sorted (· ≤ ·) (List.replicate (n - 1) v ++ [w]) := by
      refine List.pairwise_append.mpr
        ⟨sorted_replicate_le _ _, List.sorted_singleton _, ?_⟩
      intro a ha b hb
      rw [List.eq_of_mem_replicate ha, List.mem_singleton.mp hb]
      exact hvw
    have hseq : List.insertionSort (· ≤ ·) l = List.replicate (n - 1) v ++ [w] :=
      List.eq_of_perm_of_sorted hsp hsorted hcs
    unfold median
    rw [hseq, hlen]
    by_cases hp : n % 2 = 1
    · rw [if_pos hp]
      rw [List.getD_append _ _ _ _ (by simp; omega)]
      exact getD_replicate_of_lt (by omega)
    · rw [if_neg hp]
      rw [List.getD_append _ _ _ _ (by simp; omega),
        List.getD_append _ _ _ _ (by simp; omega),
        getD_replicate_of_lt (by omega), getD_replicate_of_lt (by omega)]
      omega

/-- The built model is determined pixel by pixel: if every per-pixel median
agrees with the image `s` of canonical length, the build yields `s`. -/
lemma buildModel_eq_of_pixel {res : Nat} {samples : List Image} {s : Image}
    (hres : s.length = res) (hne : samples ≠ [])
    (hpix : ∀ i, i < res →
      median (samples.map fun im => im.getD i 0) = s.getD i 0) :
    buildModel res samples = some s := by
  unfold buildModel
  rw [if_neg (by simpa using hne)]
  congr 1
  apply List.ext_getElem
  · simpa using hres.symm
  · intro i h1 h2
    have hi : i < res := by simpa using h1
    simp only [List.getElem_map, List.getElem_range]
    rw [hpix i hi]
    exact List.getD_eq_getElem s 0 h2

/-- C3 (amended): the builder over `k ≥ 1` identical reference samples
yields a model pixel-identical to the sample, and over `n - 1` identical
samples plus one outlier, in any order, with `n ≥ 3`, the built model again
equals the majority sample at every pixel — in particular it is unaffected
by the outlier at every pixel where the outlier diverges.  (For `n = 2` the
median averages the two values, so the restriction to `n ≥ 3` is needed.) -/
theorem backgroundModelBuilder_median_robust (res n : Nat) (s o : Image)
    (samples : List Image) (hres : s.length = res) (hn : 3 ≤ n)
    (hperm : samples.Perm (List.replicate (n - 1) s ++ [o])) :
    (∀ k, 1 ≤ k → buildModel res (List.replicate k s) = some s) ∧
      buildModel res samples = some s := by
  constructor
  · intro k hk
    apply buildModel_eq_of_pixel hres
    · intro h
      have h0 := congrArg List.length h
      simp only [List.length_replicate, List.length_nil] at h0
      omega
    · intro i _
      rw [List.map_replicate]
      refine median_of_constant ?_ fun x hx => List.eq_of_mem_replicate hx
      intro h
      have h0 := congrArg List.length h
      simp only [List.length_replicate, List.length_nil] at h0
      omega
  · apply buildModel_eq_of_pixel hres
    · intro h
      have h0 := hperm.length_eq
      rw [h] at h0
      simp only [List.length_nil, List.length_append, List.length_replicate,
        List.length_cons] at h0
      omega
    · intro i _
      have h2 : (samples.map fun im => im.getD i 0).Perm
          (List.replicate (n - 1) (s.getD i 0) ++ [o.getD i 0]) := by
        have h3 := hperm.map fun im => im.getD i 0
        simpa [List.map_replicate] using h3
      exact median_of_majority hn h2

/-- C3 witness: three reference samples — two holding pixel value 5 and one
outlier holding 9 — build the model `[5]`; two identical samples build the
sample itself. -/
theorem backgroundModelBuilder_median_robust_witness :
    buildModel 1 [[5], [9], [5]] = some [5] ∧
      buildModel 1 (List.replicate 2 [5]) = some [5] := by
  have h := backgroundModelBuilder_median_robust 1 3 [5] [9] [[5], [9], [5]]
    rfl (by norm_num) (by decide)
  exact ⟨h.2, h.1 2 (by norm_num)⟩

/-- C3 counterexample: two samples, one reference holding pixel value 0 and
one outlier holding 255, build the model `[127]` — the average, not the
reference value — so with N = 2 the model is affected by the outlier at the
pixel where it diverges. -/
theorem backgroundModelBuilder_two_samples_cex :
    buildModel 1 [[0], [255]] = some [127] ∧ ([127] : Image) ≠ ([0] : Image) := by
  exact ⟨by decide, by decide⟩

/-! ## ChangeDetector -/

/-- The three-way classification of a comparison. -/
inductive Classification
  | mailPresent
  | mailAbsent
  | indeterminate
deriving DecidableEq

/-- The comparison result written to the single latest-status slot. -/
structure ComparisonResult where
  timestamp : Nat
  score : ℚ
  classification : Classification
  modelVersion : Option Nat
deriving DecidableEq

/-- Modelled from the spec: the aggregate difference metric of
`compare_latest_with_median.py` (absent from the available sources): the
mean absolute per-pixel, per-channel difference between the archived image
and the model image. -/
def meanAbsDiff (a b : Image) : ℚ :=
  (((a.zipWith (fun x y => max x y - min x y) b).sum : Nat) : ℚ) / (a.length : ℚ)

/-- Modelled from the spec: `ChangeDetector.compare`.  With no stored model,
or a model whose age `now - builtAt` (in whole hours) exceeds
`maxModelAgeHours`, the classification is indeterminate regardless of the
score; otherwise the score decides: above the aggregate threshold means
mail-present, else mail-absent.  The result carries the version (build time)
of the model it compared against. -/
def compare (mo : Option MedianModel) (now maxModelAgeHours : Nat)
    (img : Image) (aggregateThreshold : ℚ) : ComparisonResult :=
  match mo with
  | none => ⟨now, 0, .indeterminate, none⟩
  | some m =>
      if maxModelAgeHours < now - m.builtAt then
        ⟨now, meanAbsDiff img m.pixels, .indeterminate, some m.builtAt⟩
      else
        ⟨now, meanAbsDiff img m.pixels,
          if aggregateThreshold < meanAbsDiff img m.pixels then .mailPresent
          else .mailAbsent,
          some m.builtAt⟩

/-- Modelled from the spec: the detector unconditionally writes its result
into the single latest comparison-status slot, whatever the slot held. -/
def runCompare (mo : Option MedianModel) (now maxAge : Nat) (img : Image)
    (thr : ℚ) (slot : Option ComparisonResult) : Option ComparisonResult :=
  some (compare mo now maxAge img thr)

/-- C4: the comparison result is always written to the status slot (never
silently dropped); a missing model, or a model older than the maximum age,
classifies as indeterminate regardless of the computed score; a fresh model
classifies mail-present exactly when the score is above the aggregate
threshold and mail-absent otherwise. -/
theorem changeDetector_compare_spec (mo : Option MedianModel)
    (now maxAge : Nat) (img : Image) (thr : ℚ)
    (slot : Option ComparisonResult) :
    runCompare mo now maxAge img thr slot =
      some (compare mo now maxAge img thr) ∧
    (mo = none →
      (compare mo now maxAge img thr).classification = .indeterminate) ∧
    (∀ m, mo = some m → maxAge < now - m.builtAt →
      (compare mo now maxAge img thr).classification = .indeterminate) ∧
    (∀ m, mo = some m → now - m.builtAt ≤ maxAge →
      (compare mo now maxAge img thr).classification =
        if thr < meanAbsDiff img m.pixels then .mailPresent
        else .mailAbsent) := by
  refine ⟨rfl, ?_, ?_, ?_⟩
  · intro h
    subst h
    rfl
  · intro m hm hage
    subst hm
    simp [compare, hage]
  · intro m hm hage
    subst hm
    simp [compare, Nat.not_lt.mpr hage]

/-- C4 witness: with a model built at hour 0 holding pixel 0, threshold 1
and archived pixel 2 — at hour 30 with a 24-hour age limit the result is
indeterminate yet still written; at hour 10 the score 2 exceeds the
threshold and classifies mail-present; with no model the result is
indeterminate. -/
theorem changeDetector_compare_spec_witness :
    (compare (some ⟨[0], 0, 1⟩) 30 24 [2] 1).classification =
      Classification.indeterminate ∧
    (compare (some ⟨[0], 0, 1⟩) 10 24 [2] 1).classification =
      Classification.mailPresent ∧
    (compare none 30 24 [2] 1).classification =
      Classification.indeterminate ∧
    runCompare (some ⟨[0], 0, 1⟩) 30 24 [2] 1 none =
      some (compare (some ⟨[0], 0, 1⟩) 30 24 [2] 1) := by
  have h1 := changeDetector_compare_spec (some ⟨[0], 0, 1⟩) 30 24 [2] 1 none
  have h2 := changeDetector_compare_spec (some ⟨[0], 0, 1⟩) 10 24 [2] 1 none
  have h3 := changeDetector_compare_spec none 30 24 [2] 1 none
  refine ⟨h1.2.2.1 _ rfl (by norm_num), ?_, h3.2.1 rfl, h1.1⟩
  rw [h2.2.2.2 ⟨[0], 0, 1⟩ rfl (by norm_num)]
  have hs : meanAbsDiff [2] [0] = 2 := by
    simp [meanAbsDiff]
  rw [hs]
  norm_num

/-! ## ThumbnailGenerator -/

/-- Round-half-up rounding of the rational `num / den`, in natural
arithmetic. -/
def roundHalfUp (num den : Nat) : Nat := (2 * num + den) / (2 * den)

/-- The failure class of the thumbnail generator. -/
inductive ResizeError
  | inputError
deriving DecidableEq

/-- The configured thumbnail width of 128 logical pixels. -/
def thumbnailWidthPx : Nat := 128

/-- Modelled from the spec: the dimension computation of
`ThumbnailGenerator.resize` (the shared thumbnail_utils layer, absent from
the available sources).  Zero-dimension sources fail with the input error;
otherwise the output width is the target width `tw` and the output height
is `round(sourceHeight * tw / sourceWidth)`, preserving aspect ratio
(rounding half up as the deterministic documented rule). -/
def resizeDims (w h tw : Nat) : Except ResizeError (Nat × Nat) :=
  if w = 0 || h = 0 then .error .inputError
  else .ok (tw, roundHalfUp (h * tw) w)

/-- C8 (amended): for a decodable source of positive width and height the
resize returns width exactly 128 and height `round(h * 128 / w)`, and the
height is nonzero whenever `w ≤ 256 * h` (the claimed "never zero" fails
only beyond that aspect ratio, see the counterexample); a 200×100 source
yields exactly 128×64. -/
theorem thumbnailGenerator_dims (w h : Nat) (hw : 0 < w) (hh : 0 < h) :
    resizeDims w h thumbnailWidthPx =
      .ok (thumbnailWidthPx, roundHalfUp (h * thumbnailWidthPx) w) ∧
    (w ≤ 256 * h → 0 < roundHalfUp (h * thumbnailWidthPx) w) ∧
    resizeDims 200 100 thumbnailWidthPx = .ok (128, 64) := by
  refine ⟨?_, ?_, rfl⟩
  · have hw0 : ¬w = 0 := by omega
    have hh0 : ¬h = 0 := by omega
    simp [resizeDims, hw0, hh0]
  · intro hwh
    unfold roundHalfUp
    rw [show (0 : Nat) < (2 * (h * thumbnailWidthPx) + w) / (2 * w) ↔
        1 ≤ (2 * (h * thumbnailWidthPx) + w) / (2 * w) from Iff.rfl]
    rw [Nat.one_le_div_iff (by omega)]
    simp only [thumbnailWidthPx]
    omega

/-- C8 witness: at the 200×100 source the resize succeeds with the exact
128×64 output and the height is positive. -/
theorem thumbnailGenerator_dims_witness :
    resizeDims 200 100 thumbnailWidthPx = Except.ok (128, 64) ∧
      0 < roundHalfUp (100 * thumbnailWidthPx) 200 :=
  ⟨(thumbnailGenerator_dims 200 100 (by norm_num) (by norm_num)).2.2,
   (thumbnailGenerator_dims 200 100 (by norm_num) (by norm_num)).2.1
      (by norm_num)⟩

/-- C8 counterexample: a decodable 300×1 source has positive width and
height, yet the aspect-preserving rounded height is zero — the resize
yields a 128×0 thumbnail, refuting "never of zero dimension" as stated. -/
theorem thumbnailGenerator_zero_height_cex :
    0 < 300 ∧ 0 < 1 ∧
      resizeDims 300 1 thumbnailWidthPx = Except.ok (128, 0) :=
  ⟨by norm_num, by norm_num, rfl⟩

/-! ## Bucket notification wiring (embedded from the CDK stack) -/

/-- S3 prefix matching of a key filter against an object key, at character
level. -/
def keyMatches (filt k : String) : Bool := filt.data.isPrefixOf k.data

/-- The S3 object-created event types (`aws-cdk-lib/aws-s3` EventType
values for object creation). -/
inductive S3EventType
  | objectCreatedPut
  | objectCreatedPost
  | objectCreatedCopy
  | objectCreatedCompleteMultipartUpload
deriving DecidableEq

/-- An object-created event on the image bucket. -/
structure S3Event where
  eventType : S3EventType
  key : String
deriving DecidableEq

/-- The pipeline lambda functions declared in the stack. -/
inductive LambdaComponent
  | uploadHandler
  | imageProcessor
  | thumbnailSync
  | createMedianImage
  | compareLatestWithMedian
deriving DecidableEq

/-- One `addEventNotification` registration on the bucket: an event type, a
key filter matched as an S3 prefix, and the destination lambda. -/
structure NotificationConfig where
  eventType : S3EventType
  keyFilter : String
  target : LambdaComponent
deriving DecidableEq

/-- The bucket notifications the stack registers: exactly one, from
`mailbox-image-analyzer-stack.ts` — `OBJECT_CREATED_PUT` events filtered on
the key prefix `uploads/latest.jpg`, destined to the image-processor
lambda. -/
def bucketNotifications : List NotificationConfig :=
  [⟨.objectCreatedPut, "uploads/latest.jpg", .imageProcessor⟩]

/-- The lambdas an object-created event invokes: the targets of all
registered notifications whose event type equals the event's and whose key
filter prefix-matches the event's key. -/
def notifiedTargets (e : S3Event) : List LambdaComponent :=
  (bucketNotifications.filter fun c =>
    c.eventType == e.eventType && keyMatches c.keyFilter e.key).map
    fun c => c.target

/-- C9 (amended): an object-created event invokes the image processor
exactly when it is a PUT whose key starts with `uploads/latest.jpg`, and no
bucket notification ever invokes any other component.  (Creates of other
types — copy, post, multipart completion — invoke nothing, and any key
extending the prefix also triggers; see the counterexample.) -/
theorem uploadNotification_targets (e : S3Event) :
    notifiedTargets e =
      if e.eventType = S3EventType.objectCreatedPut ∧
          keyMatches "uploads/latest.jpg" e.key = true
      then [LambdaComponent.imageProcessor] else [] := by
  rcases e with ⟨ty, k⟩
  by_cases hs : keyMatches "uploads/latest.jpg" k = true
  · cases ty <;> simp [notifiedTargets, bucketNotifications, hs]
  · cases ty <;> simp [notifiedTargets, bucketNotifications, hs]

/-- C9 counterexample: a PUT of the distinct key `uploads/latest.jpg.bak`
also invokes the image processor (the filter is a prefix match, not an
exact key match), while a COPY that creates `uploads/latest.jpg` itself
invokes nothing (only the PUT event type is registered) — refuting both
"no event on any other key" and "every create or overwrite". -/
theorem uploadNotification_cex :
    notifiedTargets ⟨S3EventType.objectCreatedPut, "uploads/latest.jpg.bak"⟩ =
      [LambdaComponent.imageProcessor] ∧
    notifiedTargets ⟨S3EventType.objectCreatedCopy, "uploads/latest.jpg"⟩ =
      [] := by
  exact ⟨by decide, by decide⟩

/-! ## Webapp deployment (embedded from the CDK stack) -/

/-- The `prune` property of the stack's `WebappDeployment` construct:
`prune: false` — do not delete existing files in the bucket. -/
def webappPrune : Bool := false

/-- The destination key root of the webapp deployment: the bucket root. -/
def webappDestRoot : String := ""

/-- The CDK `BucketDeployment` semantics on the store: every source asset
is written at its key; when `prune` is set, destination objects under the
destination root that correspond to no source asset are deleted; with
`prune` unset all other objects are left as they are. -/
def bucketDeployment (prune : Bool) (root : String)
    (assets : List (String × Bytes)) (st : Store) : Store :=
  fun k =>
    match assets.lookup k with
    | some b => some b
    | none => if prune && keyMatches root k then none else st k

/-- The stack's webapp deployment: the `../webapp` asset files deployed to
the bucket root with pruning disabled. -/
def webappDeployment (assets : List (String × Bytes)) (st : Store) : Store :=
  bucketDeployment webappPrune webappDestRoot assets st

/-- The logical folder tags of the pipeline's key layout. -/
inductive FolderTag
  | upload
  | archive
  | thumbnail
  | reference
deriving DecidableEq

/-- The canonical key-to-folder mapping of the pipeline layout. -/
def keyTag (k : String) : Option FolderTag :=
  if keyMatches "uploads/" k then some .upload
  else if keyMatches "usortert/" k then some .archive
  else if keyMatches "thumbnails/" k then some .thumbnail
  else if keyMatches "ai-training-data/" k then some .reference
  else none

/-- A key tagged into a pipeline folder is never a key of the deployed
asset list when every asset lives outside the pipeline folders. -/
lemma lookup_eq_none_of_tagged {assets : List (String × Bytes)} {k : String}
    (hassets : ∀ a ∈ assets, keyTag a.1 = none) (htag : keyTag k ≠ none) :
    assets.lookup k = none := by
  induction assets with
  | nil => rfl
  | cons a as ih =>
      obtain ⟨k1, b1⟩ := a
      have ha : keyTag k1 = none := hassets (k1, b1) (List.mem_cons_self _ _)
      have hne : (k == k1) = false := by
        rw [beq_eq_false_iff_ne]
        intro hk
        rw [hk] at htag
        exact htag ha
      simp only [List.lookup, hne]
      exact ih fun x hx => hassets x (List.mem_cons_of_mem _ hx)

/-- C10: the webapp deployment deletes nothing from the bucket: every
pre-existing object still exists afterwards, and every object in one of
the pipeline folders (uploads, archives, thumbnails, reference sets) is
returned bytewise unchanged, provided the webapp asset files all live
outside those folders. -/
theorem webappDeployment_preserves (assets : List (String × Bytes))
    (st : Store) (k : String)
    (hassets : ∀ a ∈ assets, keyTag a.1 = none) (htag : keyTag k ≠ none) :
    webappDeployment assets st k = st k ∧
    (∀ q b, st q = some b → ∃ c, webappDeployment assets st q = some c) := by
  constructor
  · have hlk : assets.lookup k = none := lookup_eq_none_of_tagged hassets htag
    simp [webappDeployment, bucketDeployment, hlk, webappPrune]
  · intro q b hq
    cases hl : assets.lookup q with
    | some c => exact ⟨c, by simp [webappDeployment, bucketDeployment, hl]⟩
    | none =>
        refine ⟨b, ?_⟩
        simp [webappDeployment, bucketDeployment, hl, webappPrune, hq]

/-- A store holding one archived image, for the deployment witness. -/
def preStore : Store :=
  fun k => if k = "usortert/2024-06-01-14-57.jpg" then some [3] else none

/-- C10 witness: deploying the webapp asset `index.html` over a bucket
holding an archive object leaves that archive object unchanged. -/
theorem webappDeployment_preserves_witness :
    webappDeployment [("index.html", [1])] preStore
        "usortert/2024-06-01-14-57.jpg" =
      preStore "usortert/2024-06-01-14-57.jpg" :=
  (webappDeployment_preserves [("index.html", [1])] preStore
      "usortert/2024-06-01-14-57.jpg"
      (by intro a ha; simp only [List.mem_singleton] at ha; subst ha; decide)
      (by decide)).1

end Mailbox
